import Mathlib

/-!
A shallow embedding of the MPD `SimpleDatabase` plugin
(`src/db/plugins/simple/SimpleDatabasePlugin.cxx`) and proofs about its
behaviour: path resolution, song lookup, mounting, unmounting, the
cache-backed mount, the open/check fallback, and the borrow protocol for
query results.

Machine types are modelled with `Nat`/`String`; C++ exceptions are
modelled with `Except`; in-place tree mutation is modelled as functional
update of the directory tree.
-/

namespace SimpleDB

/-- A song entry: final path segment plus an abstract tag payload. -/
structure Song where
  name : String
  tag : Nat
deriving DecidableEq, Repr

/-- The externally visible "light song" projection of a song. -/
structure LightSong where
  uri : String
  tag : Nat
deriving DecidableEq, Repr

/-- Source `Song::Export()`: read-only projection of a song into its light form. -/
def Song.exportLight (s : Song) : LightSong :=
  ⟨s.name, s.tag⟩

/-- Modelled from the spec: `PrefixedLightSong` (PrefixedLightSong.hxx is not
among the provided sources).  A heap-owned wrapper around a light song that
additionally carries the mount point's path as a prefix. -/
structure PrefixedLightSong where
  base : LightSong
  mountPath : String
deriving DecidableEq, Repr

/-- A directory node: name, child directories, songs, playlists, and an
optional mounted sub-database (identified abstractly by a numeric handle). -/
inductive Directory where
  | node (name : String) (children : List Directory) (songs : List Song)
      (playlists : List String) (mounted : Option Nat)

def Directory.name : Directory → String
  | .node n _ _ _ _ => n

def Directory.children : Directory → List Directory
  | .node _ c _ _ _ => c

def Directory.songs : Directory → List Song
  | .node _ _ s _ _ => s

def Directory.playlists : Directory → List String
  | .node _ _ _ p _ => p

def Directory.mounted : Directory → Option Nat
  | .node _ _ _ _ m => m

/-- Source `Directory::IsMount()`: the node has a mounted database attached. -/
def Directory.IsMount (d : Directory) : Bool :=
  d.mounted.isSome

/-- Find the first child directory with the given name. -/
def Directory.findChildDir (d : Directory) (s : String) : Option Directory :=
  d.children.find? (fun c => c.name == s)

/-- Source `Directory::FindSong`: find the first song with the given name. -/
def Directory.findSong (d : Directory) (s : String) : Option Song :=
  d.songs.find? (fun x => x.name == s)

/-- Source `Directory::NewRoot()`: a fresh empty root node. -/
def newRoot : Directory :=
  .node "" [] [] [] none

/-- Replace the first child directory with the given name. -/
def replaceFirstChild : List Directory → String → Directory → List Directory
  | [], _, _ => []
  | c :: cs, nm, c2 =>
    if c.name == nm then c2 :: cs else c :: replaceFirstChild cs nm c2

/-- Remove the first child directory with the given name
(`Directory::Delete()` seen from the parent). -/
def removeFirstChild : List Directory → String → List Directory
  | [], _ => []
  | c :: cs, nm =>
    if c.name == nm then cs else c :: removeFirstChild cs nm

def Directory.setChild (d : Directory) (nm : String) (c2 : Directory) : Directory :=
  match d with
  | .node n cs s p m => .node n (replaceFirstChild cs nm c2) s p m

def Directory.removeChild (d : Directory) (nm : String) : Directory :=
  match d with
  | .node n cs s p m => .node n (removeFirstChild cs nm) s p m

/-- Source `Directory::CreateChild` appends a fresh child node. -/
def Directory.addChild (d : Directory) (c : Directory) : Directory :=
  match d with
  | .node n cs s p m => .node n (cs ++ [c]) s p m

/-- Split a character list on '/' (the `strchr`-driven segment walk). -/
def splitSegsAux : List Char → List Char → List String
  | [], acc => [String.mk acc.reverse]
  | c :: cs, acc =>
    if c = '/' then String.mk acc.reverse :: splitSegsAux cs []
    else splitSegsAux cs (c :: acc)

/-- Split a URI into slash-separated segments; the empty URI has none. -/
def splitUri (uri : String) : List String :=
  if uri = "" then [] else splitSegsAux uri.data []

/-- Source test `strchr(s, '/') != nullptr`. -/
def hasSlash (s : String) : Bool :=
  s.data.contains '/'

/-- Join the unconsumed segments back into the remainder URI
(`LookupResult::uri`, which is null when everything was consumed). -/
def remString : List String → Option String
  | [] => none
  | a :: l => some (String.intercalate "/" (a :: l))

/-- Join consumed segments into a node path (`Directory::GetPath()`). -/
def pathString (segs : List String) : String :=
  String.intercalate "/" segs

/-- Result of path resolution: the deepest directory reached, the consumed
segments (its path), and the unconsumed remainder. -/
structure LookupResult where
  dir : Directory
  consumed : List String
  rem : List String

/-- Modelled from the spec: `Directory::LookupDirectory` (Directory.cxx is not
among the provided sources).  Walks the tree consuming segments as child
directory names, stopping early upon entering a mount point, and returns the
deepest node reached together with the unconsumed remainder. -/
def lookupSegs : Directory → List String → LookupResult
  | d, [] => ⟨d, [], []⟩
  | d, s :: rest =>
    match d.findChildDir s with
    | none => ⟨d, [], s :: rest⟩
    | some c =>
      if c.IsMount then ⟨c, [s], rest⟩
      else
        let r := lookupSegs c rest
        ⟨r.dir, s :: r.consumed, r.rem⟩

/-- Source call `root->LookupDirectory(uri)` on a URI string. -/
def lookupDirectory (root : Directory) (uri : String) : LookupResult :=
  lookupSegs root (splitUri uri)

/-! ## Errors -/

inductive DbErrorCode where
  | notFound
  | conflict
deriving DecidableEq, Repr

/-- The exceptions thrown by this translation unit: `DatabaseError`,
`std::runtime_error`, errno-carrying errors, and a nested-cause wrapper. -/
inductive DbError where
  | database (code : DbErrorCode) (msg : String)
  | runtime (msg : String)
  | errnoErr (msg : String)
  | nestedRuntime (msg : String)
deriving DecidableEq, Repr

/-! ## GetSong / ReturnSong -/

/-- The per-instance state touched by `GetSong`/`ReturnSong`/`Close`:
the tree root, the debug borrow counter `borrowed_song_count`, the
`prefixed_light_song` member pointer, and the reusable `light_song` slot. -/
structure DbState where
  root : Directory
  borrowed : Nat
  prefixedSlot : Option PrefixedLightSong
  slot : Option LightSong

/-- Behaviour of `mounted_database->GetSong(uri)` for each mounted instance,
identified by its handle; the uri argument may be null (`none`). -/
def MountOracle : Type :=
  Nat → Option String → Option LightSong

/-- What `SimpleDatabase::GetSong` hands back to the caller: a thrown
`DatabaseError`, a null pointer, a heap-owned prefixed wrapper, or a
reference into the reusable slot. -/
inductive GetSongResult where
  | dbError (e : DbError)
  | nullRes
  | prefixedRes (p : PrefixedLightSong)
  | slotRef (s : LightSong)
deriving DecidableEq, Repr

/-- Source `SimpleDatabase::GetSong(uri)`: resolve the path; on a mount point,
delegate the remainder to the mounted database and wrap a found song in a
fresh prefixed wrapper; on a directory or a sub-path remainder or a missing
song, throw NOT_FOUND; otherwise project the song into the reusable slot. -/
def getSongFn (o : MountOracle) (st : DbState) (uri : String) :
    GetSongResult × DbState :=
  let r := lookupDirectory st.root uri
  match r.dir.mounted with
  | some mid =>
    match o mid (remString r.rem) with
    | none => (.nullRes, st)
    | some song =>
      let p : PrefixedLightSong := ⟨song, pathString r.consumed⟩
      (.prefixedRes p, { st with prefixedSlot := some p })
  | none =>
    match remString r.rem with
    | none =>
      (.dbError (.database .notFound "No such song"), st)
    | some ruri =>
      if hasSlash ruri then
        (.dbError (.database .notFound "No such song"), st)
      else
        match r.dir.findSong ruri with
        | none => (.dbError (.database .notFound "No such song"), st)
        | some song =>
          (.slotRef song.exportLight,
           { st with slot := some song.exportLight,
                     borrowed := st.borrowed + 1 })

/-- The debug assertions at the top of `GetSong` (also of `Close`):
`prefixed_light_song == nullptr && borrowed_song_count == 0`. -/
def getSongAsserts (st : DbState) : Bool :=
  st.prefixedSlot.isNone && st.borrowed == 0

/-- The debug assertion of `ReturnSong`: the released pointer must be one of
the two possible outstanding results, so something must be outstanding. -/
def returnSongAsserts (st : DbState) : Bool :=
  st.prefixedSlot.isSome || decide (0 < st.borrowed)

/-- Source `SimpleDatabase::ReturnSong`: free the prefixed wrapper when one is
outstanding, otherwise decrement the borrow counter and destruct the slot. -/
def returnSongFn (st : DbState) : DbState :=
  if st.prefixedSlot.isSome then
    { st with prefixedSlot := none }
  else
    { st with borrowed := st.borrowed - 1, slot := none }

/-! ## Mount / Unmount -/

def conflictError : DbError :=
  .database .conflict "Already exists"

def parentNotFoundError : DbError :=
  .database .notFound "Parent not found"

/-- Source `SimpleDatabase::Mount(uri, db)` as a functional tree update, following
the same walk as `LookupDirectory`: CONFLICT when the whole path is consumed,
NOT_FOUND when the remainder still contains a slash, and otherwise
`CreateChild(remainder)` on the resolved node with the database attached. -/
def mountInsert (dbid : Nat) : Directory → List String → Except DbError Directory
  | _, [] => .error conflictError
  | d, s :: rest =>
    match d.findChildDir s with
    | none =>
      match remString (s :: rest) with
      | none => .error conflictError
      | some ruri =>
        if hasSlash ruri then .error parentNotFoundError
        else .ok (d.addChild (.node ruri [] [] [] (some dbid)))
    | some c =>
      if c.IsMount then
        match remString rest with
        | none => .error conflictError
        | some ruri =>
          if hasSlash ruri then .error parentNotFoundError
          else .ok (d.setChild s (c.addChild (.node ruri [] [] [] (some dbid))))
      else
        match mountInsert dbid c rest with
        | .ok c2 => .ok (d.setChild s c2)
        | .error e => .error e

/-- Source `SimpleDatabase::Mount(uri, db)` on a URI string. -/
def mountFn (root : Directory) (uri : String) (dbid : Nat) :
    Except DbError Directory :=
  mountInsert dbid root (splitUri uri)

/-- Apply `f` to the node reached by walking the given (already consumed)
path, rebuilding the spine: the functional rendering of mutating the node
returned by `LookupDirectory` in place. -/
def updateAt (f : Directory → Directory) : Directory → List String → Directory
  | d, [] => f d
  | d, s :: rest =>
    match d.findChildDir s with
    | none => d
    | some c => d.setChild s (updateAt f c rest)

/-- Remove the node reached by walking the given path from its parent,
rebuilding the spine (`Directory::Delete()` as a functional update). -/
def removeAt : Directory → List String → Directory
  | d, [] => d
  | d, s :: rest =>
    match rest with
    | [] => d.removeChild s
    | _ :: _ =>
      match d.findChildDir s with
      | none => d
      | some c => d.setChild s (removeAt c rest)

/-- Source `SimpleDatabase::LockUmountSteal(uri)`: resolve the path; if it resolves
exactly (no remainder) to a mount point, detach the mounted handle, delete
the node from its parent, and return the handle with the updated tree;
otherwise return null and leave the tree alone. -/
def umountSteal : Directory → List String → Option (Nat × Directory)
  | _, [] => none
  | d, s :: rest =>
    match d.findChildDir s with
    | none => none
    | some c =>
      if c.IsMount then
        match rest with
        | [] => c.mounted.map (fun id => (id, d.removeChild s))
        | _ :: _ => none
      else
        match umountSteal c rest with
        | none => none
        | some (id, c2) => some (id, d.setChild s c2)

/-- The outcome of `SimpleDatabase::Unmount(uri)`: the boolean result, the
resulting tree, and the handle of the instance that was closed and deleted
(if any). -/
structure UnmountOutcome where
  ok : Bool
  root : Directory
  closed : Option Nat

/-- Source `SimpleDatabase::Unmount(uri)`: steal the mount; on failure a benign
no-op returning false; on success close and delete the detached instance
and return true. -/
def unmountFn (root : Directory) (uri : String) : UnmountOutcome :=
  match umountSteal root (splitUri uri) with
  | none => ⟨false, root, none⟩
  | some (id, r2) => ⟨true, r2, some id⟩

/-! ## Cache-backed mount and name sanitization -/

/-- Modelled from the spec: `IsAlphaNumericASCII` (util/CharUtil.hxx is not
among the provided sources): ASCII letters and digits. -/
def IsAlphaNumericASCII (ch : Char) : Bool :=
  (decide ('a' ≤ ch) && decide (ch ≤ 'z')) ||
  (decide ('A' ≤ ch) && decide (ch ≤ 'Z')) ||
  (decide ('0' ≤ ch) && decide (ch ≤ '9'))

/-- Source `IsSafeChar`: alphanumeric ASCII or one of '-', '_', '%'. -/
def IsSafeChar (ch : Char) : Bool :=
  IsAlphaNumericASCII ch || ch == '-' || ch == '_' || ch == '%'

def IsUnsafeChar (ch : Char) : Bool :=
  !IsSafeChar ch

/-- Source `std::replace_if(name.begin(), name.end(), IsUnsafeChar, '_')` applied to
the storage URI: the cache-mount name derivation. -/
def sanitizeName (storageUri : String) : String :=
  ⟨storageUri.data.map (fun ch => if IsUnsafeChar ch then '_' else ch)⟩

/-- Outcome of the cache-backed `Mount(local_uri, storage_uri)`: the result
(new tree or propagated error), whether the freshly created sub-database
instance is still alive after the call, whether it ended up attached as a
mount in the tree, and whether `Close()` was called on it before deletion. -/
structure CacheMountOutcome where
  result : Except DbError Directory
  subAlive : Bool
  subAttached : Bool
  subCloseCalled : Bool

/-- Source `SimpleDatabase::Mount(local_uri, storage_uri)`: requires a configured
cache directory (NOT_FOUND otherwise); constructs a sub-database at the
sanitized cache path, opens it (`openOutcome` stands for that call's
result), deleting it and rethrowing on failure; then delegates to
`Mount(local_uri, db)`, closing and deleting the instance and rethrowing on
failure. -/
def cacheMountFn (cacheConfigured : Bool) (openOutcome : Except DbError Unit)
    (root : Directory) (localUri : String) (dbid : Nat) : CacheMountOutcome :=
  if !cacheConfigured then
    ⟨.error (.database .notFound "No cache_directory configured"),
     false, false, false⟩
  else
    match openOutcome with
    | .error e => ⟨.error e, false, false, false⟩
    | .ok _ =>
      match mountFn root localUri dbid with
      | .error e => ⟨.error e, false, false, true⟩
      | .ok newTree => ⟨.ok newTree, true, true, false⟩

/-! ## Open / Check -/

/-- The filesystem facts `SimpleDatabase::Check` observes about the
database path: existence, whether `FileInfo` on the parent directory
succeeds, whether the parent is a directory, X|W access on the parent,
regular-file-ness, and R|W access on the file. -/
structure FsState where
  pathExists : Bool
  parentStatOk : Bool
  parentIsDir : Bool
  parentWX : Bool
  isRegular : Bool
  fileRW : Bool
deriving DecidableEq, Repr

/-- Source `SimpleDatabase::Check()`: when the file is absent, the parent must
stat as a directory with write/execute access; when present, it must be a
regular file with read/write access. -/
def checkFn (fs : FsState) : Except DbError Unit :=
  if !fs.pathExists then
    if !fs.parentStatOk then
      .error (.nestedRuntime "On parent directory of db file")
    else if !fs.parentIsDir then
      .error (.runtime "parent path is not a directory")
    else if !fs.parentWX then
      .error (.errnoErr "Cannot create db file in parent directory")
    else .ok ()
  else if !fs.isRegular then
    .error (.runtime "db file is not a regular file")
  else if !fs.fileRW then
    .error (.errnoErr "Cannot open db file for reading and writing")
  else .ok ()

/-- Source `SimpleDatabase::Open()`: try `Load()` (whose outcome, a loaded tree or
an error, is `loadOutcome`); on failure discard the partial tree, run
`Check()`, and fall back to a fresh empty root; a `Check` failure
propagates. -/
def openFn (fs : FsState) (loadOutcome : Except DbError Directory) :
    Except DbError Directory :=
  match loadOutcome with
  | .ok d => .ok d
  | .error _ =>
    match checkFn fs with
    | .ok _ => .ok newRoot
    | .error e => .error e

/-! ## Visit -/

/-- A visitor callback invocation observed during `Visit`. -/
inductive VisitEvent where
  | dirEvent (path : String)
  | songEvent (s : LightSong)
  | playlistEvent (name : String)
deriving DecidableEq, Repr

/-- The parameters of a `Visit` call: the selection's recursion flag and
filter, which of the three visitor callbacks are supplied, and the events
produced when delegating into a mounted database (`WalkMount`, whose
implementation lives outside this translation unit). -/
structure VisitConfig where
  recursive : Bool
  filterMatch : LightSong → Bool
  hasVisitDir : Bool
  hasVisitSong : Bool
  hasVisitPlaylist : Bool
  mountEvents : Nat → Option String → List VisitEvent

/-- Modelled from the spec: `Directory::Walk` (Directory.cxx is not among
the provided sources).  Visits the songs and playlists that pass the
filter, recurses into child directories when recursion is requested, and
delegates into mount points via the mount-walk events. -/
def walkDir (cfg : VisitConfig) : Directory → List VisitEvent
  | .node _ children songs playlists _ =>
    (if cfg.hasVisitSong then
       (songs.filter (fun s => cfg.filterMatch s.exportLight)).map
         (fun s => .songEvent s.exportLight)
     else []) ++
    (if cfg.hasVisitPlaylist then playlists.map .playlistEvent else []) ++
    children.attach.flatMap (fun c =>
      match c.1.mounted with
      | some mid => cfg.mountEvents mid none
      | none =>
        (if cfg.hasVisitDir then [.dirEvent c.1.name] else []) ++
        (if cfg.recursive then walkDir cfg c.1 else []))
termination_by d => sizeOf d
decreasing_by
  simp_wf
  have h1 := List.sizeOf_lt_of_mem c.2
  omega

/-- Source `SimpleDatabase::Visit(selection, ...)`: resolve the selection's URI;
on a mount point delegate via `WalkMount`; on a directory optionally visit
it first and then walk it; on a slash-free song remainder visit the song
when the visitor is supplied, the song exists and the filter accepts it;
otherwise throw NOT_FOUND. -/
def visitFn (cfg : VisitConfig) (root : Directory) (uri : String) :
    Except DbError (List VisitEvent) :=
  let r := lookupDirectory root uri
  if r.dir.IsMount then
    match r.dir.mounted with
    | none => .ok []
    | some mid => .ok (cfg.mountEvents mid (remString r.rem))
  else
    match remString r.rem with
    | none =>
      .ok ((if cfg.recursive && cfg.hasVisitDir then
              [.dirEvent (pathString r.consumed)]
            else []) ++ walkDir cfg r.dir)
    | some ruri =>
      if hasSlash ruri then
        .error (.database .notFound "No such directory")
      else if cfg.hasVisitSong then
        match r.dir.findSong ruri with
        | some song =>
          .ok (if cfg.filterMatch song.exportLight then
                 [.songEvent song.exportLight]
               else [])
        | none => .error (.database .notFound "No such directory")
      else .error (.database .notFound "No such directory")

/-! ## The borrow protocol as a labelled transition system -/

/-- Labels for the externally driven operations of the borrow protocol. -/
inductive DbLabel where
  | getSongOp (uri : String)
  | returnSongOp
  | closeOp

/-- One protocol step: each operation fires only when its debug assertions
hold in the pre-state, and transforms the state as the code does. -/
inductive DbStep (o : MountOracle) : DbLabel → DbState → DbState → Prop where
  | getSong (st : DbState) (uri : String) (h : getSongAsserts st = true) :
      DbStep o (.getSongOp uri) st (getSongFn o st uri).2
  | returnSong (st : DbState) (h : returnSongAsserts st = true) :
      DbStep o .returnSongOp st (returnSongFn st)
  | close (st : DbState) (h : getSongAsserts st = true) :
      DbStep o .closeOp st st

/-- States reachable from a freshly opened database (borrow counter zero,
no outstanding result of either kind) by protocol steps. -/
inductive Reach (o : MountOracle) : DbState → Prop where
  | openInit (root : Directory) : Reach o ⟨root, 0, none, none⟩
  | step {s t : DbState} {l : DbLabel} :
      Reach o s → DbStep o l s t → Reach o t

/-! ## Concrete example data used by witnesses and counterexamples -/

def songB : Song := ⟨"b.mp3", 1⟩

def dirA : Directory := .node "a" [] [songB] [] none

def mountM : Directory := .node "m" [] [] [] (some 7)

def mountN : Directory := .node "n" [] [] [] (some 8)

def root0 : Directory := .node "" [dirA, mountM, mountN] [] [] none

def st0 : DbState := ⟨root0, 0, none, none⟩

def oracle0 : MountOracle := fun _ u =>
  if u = some "x" then some ⟨"x", 5⟩ else none

/-- Filesystem where the db file is absent but the parent is writable. -/
def fs0 : FsState := ⟨false, true, true, true, true, true⟩

/-- Filesystem where the db path exists but is not a regular file. -/
def fsBad : FsState := ⟨true, true, true, true, false, true⟩

def cfg0 : VisitConfig :=
  ⟨true, fun s => s.tag == 1, true, true, true, fun _ _ => []⟩

/-! ## Helper lemmas -/

theorem remString_eq_none {l : List String} : remString l = none ↔ l = [] := by
  cases l <;> simp [remString]

theorem lookupSegs_nil_consumed {d : Directory} {segs : List String}
    (h : (lookupSegs d segs).consumed = []) : (lookupSegs d segs).dir = d := by
  cases segs with
  | nil => rfl
  | cons s rest =>
    simp only [lookupSegs] at h ⊢
    cases hf : d.findChildDir s with
    | none => simp [hf]
    | some c =>
      simp only [hf] at h ⊢
      by_cases hm : c.IsMount = true <;> simp [hm] at h ⊢

/-! ## C4: cache-mount name sanitization -/

/-- C4: the cache-mount name derivation is a pure deterministic function of
the storage identifier: each character that is not alphanumeric, '-', '_'
or '%' is replaced by '_', so equal identifiers yield equal names and every
character of the result is safe. -/
theorem C4_sanitize (s : String) :
    ((sanitizeName s).data.all IsSafeChar = true) ∧
    ((sanitizeName s).data =
      s.data.map (fun ch => if IsUnsafeChar ch then '_' else ch)) ∧
    (∀ t : String, s = t → sanitizeName s = sanitizeName t) := by
  refine ⟨?_, rfl, fun t h => by rw [h]⟩
  simp only [sanitizeName, List.all_eq_true]
  intro c hc
  simp only [List.mem_map] at hc
  obtain ⟨a, -, rfl⟩ := hc
  by_cases h : IsUnsafeChar a = true
  · simp only [h, if_pos]
    decide
  · simp only [h, if_neg, Bool.false_eq_true, ite_false]
    simp only [IsUnsafeChar, Bool.not_eq_true] at h
    simpa using h

theorem C4_sanitize_witness :
    ((sanitizeName "http://x/y:z").data.all IsSafeChar = true) ∧
    sanitizeName "http://x/y:z" = "http___x_y_z" :=
  ⟨(C4_sanitize "http://x/y:z").1, by decide⟩

/-! ## C6: Open falls back to an empty root only after Check passes -/

/-- C6: when `Load` fails during `Open`, the partial tree is discarded and
`Open` yields a fresh empty root exactly when `Check` passes; a `Check`
failure propagates out of `Open`; and `Check` passes precisely when the
file exists as a readable/writable regular file, or is absent with a
writable/executable parent directory. -/
theorem C6_open_fallback (fs : FsState) (e : DbError) :
    (checkFn fs = .ok () → openFn fs (.error e) = .ok newRoot) ∧
    (∀ ce : DbError, checkFn fs = .error ce →
       openFn fs (.error e) = .error ce) ∧
    (checkFn fs = .ok () ↔
      ((fs.pathExists = true ∧ fs.isRegular = true ∧ fs.fileRW = true) ∨
       (fs.pathExists = false ∧ fs.parentStatOk = true ∧
        fs.parentIsDir = true ∧ fs.parentWX = true))) := by
  refine ⟨fun h => by simp [openFn, h], fun ce h => by simp [openFn, h], ?_⟩
  obtain ⟨p1, p2, p3, p4, p5, p6⟩ := fs
  cases p1 <;> cases p2 <;> cases p3 <;> cases p4 <;> cases p5 <;> cases p6 <;>
    simp [checkFn]

theorem C6_open_fallback_witness :
    (openFn fs0 (.error (.runtime "corrupt db file")) = .ok newRoot) ∧
    (openFn fsBad (.error (.runtime "corrupt db file")) =
      .error (.runtime "db file is not a regular file")) :=
  ⟨(C6_open_fallback fs0 (.runtime "corrupt db file")).1 rfl,
   (C6_open_fallback fsBad (.runtime "corrupt db file")).2.1
     (.runtime "db file is not a regular file") rfl⟩

/-! ## C3: cache-backed Mount is atomic on failure -/

/-- C3: the cache-backed mount fails with NOT_FOUND and no state change
when no cache directory is configured; an open failure destroys the fresh
instance and propagates; an instance-mount failure closes and destroys the
opened instance and propagates; and no failure leaves a live sub-database
instance or an attached mount node behind. -/
theorem C3_cacheMount_atomic (oc : Except DbError Unit) (root : Directory)
    (localUri : String) (dbid : Nat) :
    (cacheMountFn false oc root localUri dbid =
      ⟨.error (.database .notFound "No cache_directory configured"),
       false, false, false⟩) ∧
    (∀ e, oc = .error e →
       cacheMountFn true oc root localUri dbid =
         ⟨.error e, false, false, false⟩) ∧
    (∀ e, oc = .ok () → mountFn root localUri dbid = .error e →
       cacheMountFn true oc root localUri dbid = ⟨.error e, false, false, true⟩) ∧
    (∀ cfgd e, (cacheMountFn cfgd oc root localUri dbid).result = .error e →
       (cacheMountFn cfgd oc root localUri dbid).subAlive = false ∧
       (cacheMountFn cfgd oc root localUri dbid).subAttached = false) := by
  refine ⟨rfl, fun e h => by rw [h]; rfl, fun e h hm => by rw [h]; simp [cacheMountFn, hm], ?_⟩
  intro cfgd e h
  cases cfgd with
  | false => exact ⟨rfl, rfl⟩
  | true =>
    cases oc with
    | error e2 => exact ⟨rfl, rfl⟩
    | ok u =>
      cases hm : mountFn root localUri dbid with
      | error e2 => simp [cacheMountFn, hm]
      | ok t =>
        simp only [cacheMountFn, Bool.not_true, Bool.false_eq_true, if_false, hm] at h
        cases h

theorem C3_cacheMount_atomic_witness :
    (cacheMountFn false (.ok ()) root0 "newmnt" 9 =
      ⟨.error (.database .notFound "No cache_directory configured"),
       false, false, false⟩) ∧
    (cacheMountFn true (.error (.runtime "open failed")) root0 "newmnt" 9 =
      ⟨.error (.runtime "open failed"), false, false, false⟩) ∧
    (cacheMountFn true (.ok ()) root0 "a" 9 =
      ⟨.error conflictError, false, false, true⟩) :=
  ⟨(C3_cacheMount_atomic (.ok ()) root0 "newmnt" 9).1,
   (C3_cacheMount_atomic (.error (.runtime "open failed")) root0 "newmnt" 9).2.1
     (.runtime "open failed") rfl,
   (C3_cacheMount_atomic (.ok ()) root0 "a" 9).2.2.1 conflictError rfl rfl⟩

/-! ## C10: delegated GetSong reports absence as null, not as an error -/

/-- C10: `GetSong` returns a null result exactly when resolution lands on a
mount point and the mounted database's `GetSong` returns null for the
remainder; every such call leaves the state unchanged. -/
theorem C10_mount_null (o : MountOracle) (st : DbState) (uri : String) :
    ((getSongFn o st uri).1 = .nullRes ↔
      (∃ mid, (lookupDirectory st.root uri).dir.mounted = some mid ∧
        o mid (remString (lookupDirectory st.root uri).rem) = none)) ∧
    ((getSongFn o st uri).1 = .nullRes → (getSongFn o st uri).2 = st) := by
  cases hmid : (lookupDirectory st.root uri).dir.mounted with
  | some mid =>
    cases ho : o mid (remString (lookupDirectory st.root uri).rem) with
    | none =>
      have hq : getSongFn o st uri = (.nullRes, st) := by
        simp only [getSongFn, hmid, ho]
      rw [hq]
      exact ⟨iff_of_true rfl ⟨mid, rfl, ho⟩, fun _ => rfl⟩
    | some song =>
      have hq : getSongFn o st uri =
          (.prefixedRes
             ⟨song, pathString (lookupDirectory st.root uri).consumed⟩,
           { st with
             prefixedSlot := some (PrefixedLightSong.mk song
               (pathString (lookupDirectory st.root uri).consumed)) }) := by
        simp only [getSongFn, hmid, ho]
      rw [hq]
      refine ⟨iff_of_false nofun ?_, nofun⟩
      rintro ⟨mid2, hmid2, ho2⟩
      injection hmid2 with he
      rw [← he] at ho2
      rw [ho] at ho2
      cases ho2
  | none =>
    have hrhs : ∀ z : Option String, ¬ ∃ mid,
        (none : Option Nat) = some mid ∧ o mid z = none := by
      rintro z ⟨mid, hmid2, -⟩
      cases hmid2
    cases hr : remString (lookupDirectory st.root uri).rem with
    | none =>
      have hq : getSongFn o st uri =
          (.dbError (.database .notFound "No such song"), st) := by
        simp only [getSongFn, hmid, hr]
      rw [hq]
      exact ⟨iff_of_false nofun (hrhs _), nofun⟩
    | some ruri =>
      by_cases hs : hasSlash ruri = true
      · have hq : getSongFn o st uri =
            (.dbError (.database .notFound "No such song"), st) := by
          simp only [getSongFn, hmid, hr, hs, if_true]
        rw [hq]
        exact ⟨iff_of_false nofun (hrhs _), nofun⟩
      · simp only [Bool.not_eq_true] at hs
        cases hf : (lookupDirectory st.root uri).dir.findSong ruri with
        | none =>
          have hq : getSongFn o st uri =
              (.dbError (.database .notFound "No such song"), st) := by
            simp only [getSongFn, hmid, hr, hs, Bool.false_eq_true, if_false,
              hf]
          rw [hq]
          exact ⟨iff_of_false nofun (hrhs _), nofun⟩
        | some song =>
          have hq : getSongFn o st uri =
              (.slotRef song.exportLight,
               { st with slot := some song.exportLight,
                         borrowed := st.borrowed + 1 }) := by
            simp only [getSongFn, hmid, hr, hs, Bool.false_eq_true, if_false,
              hf]
          rw [hq]
          exact ⟨iff_of_false nofun (hrhs _), nofun⟩

/-! ## C1: direct GetSong error and success characterization -/

/-- C1: on a non-mount resolution, `GetSong` throws NOT_FOUND exactly when
the remainder is empty (a directory), contains a slash (a sub-path of a
song), or names no song of the resolved directory; otherwise it projects
the found song into the reusable slot and returns a reference to that
projection. -/
theorem C1_getSong (o : MountOracle) (st : DbState) (uri : String)
    (hm : (lookupDirectory st.root uri).dir.IsMount = false) :
    ((getSongFn o st uri).1 = .dbError (.database .notFound "No such song") ↔
      ((lookupDirectory st.root uri).rem = [] ∨
       (∃ ru, remString (lookupDirectory st.root uri).rem = some ru ∧
         (hasSlash ru = true ∨
          (lookupDirectory st.root uri).dir.findSong ru = none)))) ∧
    (∀ ru song, remString (lookupDirectory st.root uri).rem = some ru →
       hasSlash ru = false →
       (lookupDirectory st.root uri).dir.findSong ru = some song →
       (getSongFn o st uri).1 = .slotRef song.exportLight ∧
       (getSongFn o st uri).2 =
         { st with slot := some song.exportLight,
                   borrowed := st.borrowed + 1 }) := by
  have hmid : (lookupDirectory st.root uri).dir.mounted = none := by
    cases hq : (lookupDirectory st.root uri).dir.mounted with
    | none => rfl
    | some mid => simp [Directory.IsMount, hq] at hm
  simp only [getSongFn, hmid]
  constructor
  · cases hr : remString (lookupDirectory st.root uri).rem with
    | none =>
      exact iff_of_true (by trivial) (Or.inl (remString_eq_none.mp hr))
    | some ruri =>
      have hne : ¬ (lookupDirectory st.root uri).rem = [] := by
        intro h
        rw [remString_eq_none.mpr h] at hr
        cases hr
      by_cases hs : hasSlash ruri = true
      · simp only [hs, if_true]
        exact iff_of_true (by trivial) (Or.inr ⟨ruri, rfl, Or.inl hs⟩)
      · simp only [Bool.not_eq_true] at hs
        simp only [hs, Bool.false_eq_true, if_false]
        cases hf : (lookupDirectory st.root uri).dir.findSong ruri with
        | none =>
          exact iff_of_true (by trivial) (Or.inr ⟨ruri, rfl, Or.inr hf⟩)
        | some song =>
          refine iff_of_false nofun ?_
          rintro (h | ⟨ru, hru, hcase⟩)
          · exact hne h
          · cases hru
            cases hcase with
            | inl h => rw [h] at hs; cases hs
            | inr h => rw [h] at hf; cases hf
  · intro ru song hru hs hf
    simp only [hru, hs, Bool.false_eq_true, if_false, hf]
    exact ⟨by trivial, by trivial⟩

theorem C1_getSong_witness :
    (getSongFn oracle0 st0 "a/b.mp3").1 = .slotRef ⟨"b.mp3", 1⟩ ∧
    (getSongFn oracle0 st0 "a/b.mp3").2 =
      { st0 with slot := some ⟨"b.mp3", 1⟩, borrowed := 1 } ∧
    (getSongFn oracle0 st0 "a").1 =
      .dbError (.database .notFound "No such song") := by
  refine ⟨?_, ?_, ?_⟩
  · exact ((C1_getSong oracle0 st0 "a/b.mp3" (by decide)).2 "b.mp3" songB
      (by decide) (by decide) (by decide)).1
  · exact ((C1_getSong oracle0 st0 "a/b.mp3" (by decide)).2 "b.mp3" songB
      (by decide) (by decide) (by decide)).2
  · exact (C1_getSong oracle0 st0 "a" (by decide)).1.mpr (Or.inl (by decide))

/-! ## C7: Visit on a single song name -/

/-- C7: when a Visit selection resolves on a non-mount node to a remainder,
a slash-free remainder naming an existing song invokes the song visitor
exactly when it is supplied and the filter accepts the exported song, and
an absent song or a remainder with a further slash yields NOT_FOUND. -/
theorem C7_visit_song (cfg : VisitConfig) (root : Directory) (uri : String)
    (hm : (lookupDirectory root uri).dir.IsMount = false)
    (ruri : String)
    (hr : remString (lookupDirectory root uri).rem = some ruri) :
    (∀ song, hasSlash ruri = false →
       (lookupDirectory root uri).dir.findSong ruri = some song →
       visitFn cfg root uri =
         (if cfg.hasVisitSong then
            .ok (if cfg.filterMatch song.exportLight then
                   [.songEvent song.exportLight]
                 else [])
          else .error (.database .notFound "No such directory"))) ∧
    ((hasSlash ruri = true ∨
      (hasSlash ruri = false ∧
       (lookupDirectory root uri).dir.findSong ruri = none)) →
       visitFn cfg root uri = .error (.database .notFound "No such directory")) := by
  simp only [visitFn, hm, Bool.false_eq_true, if_false, hr]
  constructor
  · intro song hs hf
    simp only [hs, Bool.false_eq_true, if_false, hf]
  · rintro (hs | ⟨hs, hf⟩)
    · simp [hs]
    · simp only [hs, Bool.false_eq_true, if_false, hf, ite_self]

theorem C7_visit_song_witness :
    visitFn cfg0 root0 "a/b.mp3" = .ok [.songEvent ⟨"b.mp3", 1⟩] ∧
    visitFn cfg0 root0 "a/zzz" =
      .error (.database .notFound "No such directory") := by
  constructor
  · have h := (C7_visit_song cfg0 root0 "a/b.mp3" (by decide) "b.mp3"
      (by decide)).1 songB (by decide) (by decide)
    rw [h]
    rfl
  · exact (C7_visit_song cfg0 root0 "a/zzz" (by decide) "zzz"
      (by decide)).2 (Or.inr ⟨by decide, by decide⟩)

/-! ## C2: Mount(uri, db) -/

theorem mountInsert_lookup (dbid : Nat) : ∀ (segs : List String) (d : Directory),
    (mountInsert dbid d segs = .error conflictError ↔
      (lookupSegs d segs).rem = []) ∧
    (∀ ru, remString (lookupSegs d segs).rem = some ru →
       (hasSlash ru = true →
          mountInsert dbid d segs = .error parentNotFoundError) ∧
       (hasSlash ru = false →
          mountInsert dbid d segs =
            .ok (updateAt (fun p => p.addChild (.node ru [] [] [] (some dbid)))
                   d (lookupSegs d segs).consumed))) := by
  intro segs
  induction segs with
  | nil =>
    intro d
    refine ⟨by simp [mountInsert, lookupSegs], ?_⟩
    intro ru hru
    simp only [lookupSegs, remString] at hru
    cases hru
  | cons s rest ih =>
    intro d
    cases hf : d.findChildDir s with
    | none =>
      simp only [mountInsert, lookupSegs, hf, remString]
      constructor
      · constructor
        · intro h
          by_cases hs : hasSlash (String.intercalate "/" (s :: rest)) = true <;>
            simp [hs, conflictError, parentNotFoundError] at h
        · intro h; cases h
      · intro ru hru
        cases hru
        constructor
        · intro hs; simp [hs]
        · intro hs
          simp only [hs, Bool.false_eq_true, if_false, updateAt]
    | some c =>
      by_cases hmount : c.IsMount = true
      · cases rest with
        | nil =>
          simp only [mountInsert, lookupSegs, hf, hmount, if_true, remString]
          refine ⟨by simp, ?_⟩
          intro ru hru
          cases hru
        | cons t ts =>
          simp only [mountInsert, lookupSegs, hf, hmount, if_true, remString]
          constructor
          · constructor
            · intro h
              by_cases hs : hasSlash (String.intercalate "/" (t :: ts)) = true <;>
                simp [hs, conflictError, parentNotFoundError] at h
            · intro h; cases h
          · intro ru hru
            cases hru
            constructor
            · intro hs; simp [hs]
            · intro hs
              simp only [hs, Bool.false_eq_true, if_false, updateAt, hf]
      · simp only [Bool.not_eq_true] at hmount
        have ihc := ih c
        simp only [mountInsert, lookupSegs, hf, hmount, Bool.false_eq_true,
          if_false]
        constructor
        · cases hrec : mountInsert dbid c rest with
          | ok c2 =>
            simp only []
            constructor
            · intro h; cases h
            · intro h
              rw [hrec] at ihc
              have := ihc.1.mpr h
              cases this
          | error e =>
            simp only []
            rw [hrec] at ihc
            constructor
            · intro h
              injection h with h2
              exact ihc.1.mp (by rw [h2])
            · intro h
              have := ihc.1.mpr h
              injection this with h2
              rw [h2]
        · intro ru hru
          have hparts := ihc.2 ru hru
          constructor
          · intro hs
            rw [hparts.1 hs]
          · intro hs
            rw [hparts.2 hs]
            simp only [updateAt, hf]

/-- C2: for a non-empty URI, `Mount(uri, db)` throws CONFLICT exactly when
the path fully resolves (no remainder); throws NOT_FOUND when the
remainder still contains a slash; and otherwise creates a new child
directory named after the final segment, with the database attached, under
the node where resolution stopped. -/
theorem C2_mount (root : Directory) (uri : String) (dbid : Nat)
    (_huri : uri ≠ "") :
    (mountFn root uri dbid = .error conflictError ↔
      (lookupDirectory root uri).rem = []) ∧
    (∀ ru, remString (lookupDirectory root uri).rem = some ru →
       (hasSlash ru = true →
          mountFn root uri dbid = .error parentNotFoundError) ∧
       (hasSlash ru = false →
          mountFn root uri dbid =
            .ok (updateAt (fun p => p.addChild (.node ru [] [] [] (some dbid)))
                   root (lookupDirectory root uri).consumed))) :=
  mountInsert_lookup dbid (splitUri uri) root

theorem C2_mount_witness :
    (mountFn root0 "newmnt" 3 =
      .ok (.node "" [dirA, mountM, mountN, .node "newmnt" [] [] [] (some 3)]
             [] [] none)) ∧
    (mountFn root0 "a" 3 = .error conflictError) ∧
    (mountFn root0 "p/q/r" 3 = .error parentNotFoundError) := by
  refine ⟨?_, ?_, ?_⟩
  · have h := ((C2_mount root0 "newmnt" 3 (by decide)).2 "newmnt"
      (by decide)).2 (by decide)
    rw [h]
    rfl
  · exact (C2_mount root0 "a" 3 (by decide)).1.mpr (by decide)
  · exact ((C2_mount root0 "p/q/r" 3 (by decide)).2 "p/q/r"
      (by decide)).1 (by decide)

/-! ## C5: Unmount -/

theorem umountSteal_some_iff : ∀ (segs : List String) (d : Directory),
    d.IsMount = false → ∀ (id : Nat) (r2 : Directory),
    (umountSteal d segs = some (id, r2) ↔
      ((lookupSegs d segs).rem = [] ∧
       (lookupSegs d segs).dir.mounted = some id ∧
       r2 = removeAt d (lookupSegs d segs).consumed)) := by
  intro segs
  induction segs with
  | nil =>
    intro d hd id r2
    simp only [umountSteal, lookupSegs]
    constructor
    · intro h; cases h
    · rintro ⟨-, hmid, -⟩
      simp [Directory.IsMount, hmid] at hd
  | cons s rest ih =>
    intro d hd id r2
    cases hf : d.findChildDir s with
    | none =>
      simp only [umountSteal, lookupSegs, hf]
      constructor
      · intro h; cases h
      · rintro ⟨h, -, -⟩; cases h
    | some c =>
      by_cases hmount : c.IsMount = true
      · cases rest with
        | nil =>
          obtain ⟨cid, hcid⟩ : ∃ cid, c.mounted = some cid := by
            cases hcm : c.mounted with
            | none => simp [Directory.IsMount, hcm] at hmount
            | some cid => exact ⟨cid, rfl⟩
          simp only [umountSteal, lookupSegs, hf, hmount, if_true, hcid,
            Option.map_some]
          constructor
          · intro h
            injection h with h2
            injection h2 with hid hr2
            refine ⟨by trivial, by rw [hid], ?_⟩
            rw [← hr2]
            rfl
          · rintro ⟨-, hmid, hr2⟩
            injection hmid with hid
            rw [hid, hr2]
            rfl
        | cons t ts =>
          simp only [umountSteal, lookupSegs, hf, hmount, if_true]
          constructor
          · intro h; cases h
          · rintro ⟨h, -, -⟩; cases h
      · simp only [Bool.not_eq_true] at hmount
        simp only [umountSteal, lookupSegs, hf, hmount, Bool.false_eq_true,
          if_false]
        cases hrec : umountSteal c rest with
        | none =>
          constructor
          · intro h; cases h
          · rintro ⟨hrem, hmid, -⟩
            have := (ih c hmount id
              (removeAt c (lookupSegs c rest).consumed)).mpr ⟨hrem, hmid, rfl⟩
            rw [hrec] at this
            cases this
        | some p =>
          obtain ⟨id0, c2⟩ := p
          obtain ⟨hrem, hmid0, hc2⟩ := (ih c hmount id0 c2).mp hrec
          have hconsne : (lookupSegs c rest).consumed ≠ [] := by
            intro hnil
            have hdir := lookupSegs_nil_consumed hnil
            rw [hdir] at hmid0
            simp [Directory.IsMount, hmid0] at hmount
          obtain ⟨u, us, hcons⟩ :
              ∃ u us, (lookupSegs c rest).consumed = u :: us := by
            cases hc : (lookupSegs c rest).consumed with
            | nil => exact absurd hc hconsne
            | cons u us => exact ⟨u, us, rfl⟩
          have hred : removeAt d (s :: (lookupSegs c rest).consumed) =
              d.setChild s (removeAt c (lookupSegs c rest).consumed) := by
            rw [hcons]
            simp only [removeAt, hf]
          constructor
          · intro h
            injection h with h2
            injection h2 with hid hr2
            refine ⟨hrem, by rw [← hid]; exact hmid0, ?_⟩
            rw [← hr2, hc2, hred]
          · rintro ⟨-, hmid, hr2⟩
            rw [hmid0] at hmid
            injection hmid with hid
            rw [hid, hr2, hred, ← hc2]

theorem umountSteal_none_iff (segs : List String) (d : Directory)
    (hd : d.IsMount = false) :
    (umountSteal d segs = none ↔
      ¬((lookupSegs d segs).rem = [] ∧
        (lookupSegs d segs).dir.IsMount = true)) := by
  cases hrec : umountSteal d segs with
  | none =>
    refine iff_of_true rfl ?_
    rintro ⟨hrem, hmount⟩
    obtain ⟨mid, hmid⟩ : ∃ mid, (lookupSegs d segs).dir.mounted = some mid := by
      cases hm : (lookupSegs d segs).dir.mounted with
      | none => simp [Directory.IsMount, hm] at hmount
      | some mid => exact ⟨mid, rfl⟩
    have := (umountSteal_some_iff segs d hd mid
      (removeAt d (lookupSegs d segs).consumed)).mpr ⟨hrem, hmid, rfl⟩
    rw [hrec] at this
    cases this
  | some p =>
    obtain ⟨id, r2⟩ := p
    have hfacts := (umountSteal_some_iff segs d hd id r2).mp (by rw [hrec])
    refine iff_of_false nofun ?_
    intro hcon
    exact hcon ⟨hfacts.1, by simp [Directory.IsMount, hfacts.2.1]⟩

/-- C5: `Unmount(uri)` is a benign no-op returning false (no error, no
state change) unless the URI resolves exactly, with no remainder, to a
mount point; in that case it deletes the mount node from its parent,
closes and destroys the detached instance, and returns true. -/
theorem C5_unmount (root : Directory) (uri : String)
    (hroot : root.IsMount = false) :
    ((¬((lookupDirectory root uri).rem = [] ∧
        (lookupDirectory root uri).dir.IsMount = true)) →
       unmountFn root uri = ⟨false, root, none⟩) ∧
    (∀ id, (lookupDirectory root uri).rem = [] →
       (lookupDirectory root uri).dir.mounted = some id →
       unmountFn root uri =
         ⟨true, removeAt root (lookupDirectory root uri).consumed, some id⟩) := by
  constructor
  · intro h
    have hn := (umountSteal_none_iff (splitUri uri) root hroot).mpr h
    simp only [unmountFn, hn]
  · intro id hrem hmid
    have hs := (umountSteal_some_iff (splitUri uri) root hroot id
      (removeAt root (lookupDirectory root uri).consumed)).mpr ⟨hrem, hmid, rfl⟩
    simp only [unmountFn, hs]

theorem C5_unmount_witness :
    (unmountFn root0 "m" =
      ⟨true, .node "" [dirA, mountN] [] [] none, some 7⟩) ∧
    (unmountFn root0 "a" = ⟨false, root0, none⟩) ∧
    (unmountFn root0 "zzz" = ⟨false, root0, none⟩) := by
  refine ⟨?_, ?_, ?_⟩
  · have h := (C5_unmount root0 "m" (by decide)).2 7 (by decide) (by decide)
    rw [h]
    rfl
  · exact (C5_unmount root0 "a" (by decide)).1 (by decide)
  · exact (C5_unmount root0 "zzz" (by decide)).1 (by decide)

/-! ## C9: the borrow discipline -/

theorem getSongFn_borrowed (o : MountOracle) (st : DbState) (uri : String) :
    ((getSongFn o st uri).2.borrowed = st.borrowed ∧
      ∀ song, (getSongFn o st uri).1 ≠ GetSongResult.slotRef song) ∨
    ((getSongFn o st uri).2.borrowed = st.borrowed + 1 ∧
      (getSongFn o st uri).2.slot ≠ none ∧
      ∃ song, (getSongFn o st uri).1 = .slotRef song) := by
  cases hmid : (lookupDirectory st.root uri).dir.mounted with
  | some mid =>
    cases ho : o mid (remString (lookupDirectory st.root uri).rem) with
    | none =>
      have hq : getSongFn o st uri = (.nullRes, st) := by
        simp only [getSongFn, hmid, ho]
      rw [hq]
      exact Or.inl ⟨rfl, nofun⟩
    | some song =>
      have hq : getSongFn o st uri =
          (.prefixedRes
             ⟨song, pathString (lookupDirectory st.root uri).consumed⟩,
           { st with
             prefixedSlot := some (PrefixedLightSong.mk song
               (pathString (lookupDirectory st.root uri).consumed)) }) := by
        simp only [getSongFn, hmid, ho]
      rw [hq]
      exact Or.inl ⟨rfl, nofun⟩
  | none =>
    cases hr : remString (lookupDirectory st.root uri).rem with
    | none =>
      have hq : getSongFn o st uri =
          (.dbError (.database .notFound "No such song"), st) := by
        simp only [getSongFn, hmid, hr]
      rw [hq]
      exact Or.inl ⟨rfl, nofun⟩
    | some ruri =>
      by_cases hs : hasSlash ruri = true
      · have hq : getSongFn o st uri =
            (.dbError (.database .notFound "No such song"), st) := by
          simp only [getSongFn, hmid, hr, hs, if_true]
        rw [hq]
        exact Or.inl ⟨rfl, nofun⟩
      · simp only [Bool.not_eq_true] at hs
        cases hf : (lookupDirectory st.root uri).dir.findSong ruri with
        | none =>
          have hq : getSongFn o st uri =
              (.dbError (.database .notFound "No such song"), st) := by
            simp only [getSongFn, hmid, hr, hs, Bool.false_eq_true, if_false,
              hf]
          rw [hq]
          exact Or.inl ⟨rfl, nofun⟩
        | some song =>
          have hq : getSongFn o st uri =
              (.slotRef song.exportLight,
               { st with slot := some song.exportLight,
                         borrowed := st.borrowed + 1 }) := by
            simp only [getSongFn, hmid, hr, hs, Bool.false_eq_true, if_false,
              hf]
          rw [hq]
          exact Or.inr ⟨rfl, nofun, song.exportLight, rfl⟩

theorem getSongAsserts_spec {st : DbState} (h : getSongAsserts st = true) :
    st.prefixedSlot = none ∧ st.borrowed = 0 := by
  simp only [getSongAsserts, Bool.and_eq_true, Option.isNone_iff_eq_none,
    beq_iff_eq] at h
  exact h

theorem returnSongFn_prefixed {st : DbState}
    (hp : st.prefixedSlot.isSome = true) :
    returnSongFn st = { st with prefixedSlot := none } := by
  simp [returnSongFn, hp]

theorem returnSongFn_direct {st : DbState}
    (hp : st.prefixedSlot.isSome = false) :
    returnSongFn st = { st with borrowed := st.borrowed - 1, slot := none } := by
  simp [returnSongFn, hp]

/-- Inversion of a protocol step: which operation ran, its assertion, and
the resulting state. -/
theorem DbStep.inv {o : MountOracle} {l : DbLabel} {s t : DbState}
    (h : DbStep o l s t) :
    (∃ uri, l = .getSongOp uri ∧ getSongAsserts s = true ∧
       t = (getSongFn o s uri).2) ∨
    (l = .returnSongOp ∧ returnSongAsserts s = true ∧ t = returnSongFn s) ∨
    (l = .closeOp ∧ getSongAsserts s = true ∧ t = s) := by
  cases h
  case getSong =>
    rename_i uri hg
    exact Or.inl ⟨uri, rfl, hg, rfl⟩
  case returnSong =>
    rename_i hg
    exact Or.inr (Or.inl ⟨rfl, hg, rfl⟩)
  case close =>
    rename_i hg
    exact Or.inr (Or.inr ⟨rfl, hg, rfl⟩)

theorem DbStep.borrowed_le {o : MountOracle} {l : DbLabel} {s t : DbState}
    (h : DbStep o l s t) (hs : s.borrowed ≤ 1) : t.borrowed ≤ 1 := by
  rcases h.inv with ⟨uri, -, hg, ht⟩ | ⟨-, hg, ht⟩ | ⟨-, -, ht⟩
  · subst ht
    have hb := (getSongAsserts_spec hg).2
    rcases getSongFn_borrowed o s uri with ⟨h1, -⟩ | ⟨h1, -, -⟩ <;> omega
  · subst ht
    by_cases hp : s.prefixedSlot.isSome = true
    · rw [returnSongFn_prefixed hp]
      exact hs
    · rw [returnSongFn_direct (by simp only [Bool.not_eq_true] at hp; exact hp)]
      show s.borrowed - 1 ≤ 1
      omega
  · subst ht
    exact hs

/-- C9: safety of the borrow discipline: on every reachable state the
outstanding-borrow counter is at most 1; every `GetSong` and every `Close`
step starts from a state with counter zero and empty prefixed slot; the
counter is incremented only by a successful direct `GetSong` (by exactly
one, from zero), and decremented only by a direct-case `ReturnSong` (which
also empties the slot); a prefixed-case `ReturnSong` frees the wrapper and
leaves the counter alone; and no `ReturnSong` step exists from a state with
nothing outstanding. -/
theorem C9_borrow_discipline (o : MountOracle) :
    (∀ st, Reach o st → st.borrowed ≤ 1) ∧
    (∀ st t uri, DbStep o (.getSongOp uri) st t →
       st.borrowed = 0 ∧ st.prefixedSlot = none) ∧
    (∀ st t, DbStep o .closeOp st t →
       st.borrowed = 0 ∧ st.prefixedSlot = none) ∧
    (∀ st t l, DbStep o l st t → st.borrowed < t.borrowed →
       ∃ uri, l = .getSongOp uri ∧
         (∃ song, (getSongFn o st uri).1 = .slotRef song) ∧
         t.borrowed = st.borrowed + 1 ∧ st.borrowed = 0) ∧
    (∀ st t l, DbStep o l st t → t.borrowed < st.borrowed →
       l = .returnSongOp ∧ st.prefixedSlot = none ∧
       t.borrowed + 1 = st.borrowed ∧ t.slot = none) ∧
    (∀ st t, DbStep o .returnSongOp st t → st.prefixedSlot.isSome = true →
       t.prefixedSlot = none ∧ t.borrowed = st.borrowed) ∧
    (∀ root t, ¬ DbStep o .returnSongOp ⟨root, 0, none, none⟩ t) := by
  have hprefixed_borrow : ∀ st : DbState,
      ({ st with prefixedSlot := none } : DbState).borrowed = st.borrowed :=
    fun _ => rfl
  have hdirect_borrow : ∀ st : DbState,
      ({ st with borrowed := st.borrowed - 1, slot := none }
        : DbState).borrowed = st.borrowed - 1 :=
    fun _ => rfl
  refine ⟨?_, ?_, ?_, ?_, ?_, ?_, ?_⟩
  · intro st h
    induction h with
    | openInit root => exact Nat.zero_le 1
    | step hr hstep ih => exact hstep.borrowed_le ih
  · intro st t uri h
    rcases h.inv with ⟨u, -, hg, -⟩ | ⟨hl, -, -⟩ | ⟨hl, -, -⟩
    · exact ⟨(getSongAsserts_spec hg).2, (getSongAsserts_spec hg).1⟩
    · cases hl
    · cases hl
  · intro st t h
    rcases h.inv with ⟨u, hl, -, -⟩ | ⟨hl, -, -⟩ | ⟨-, hg, -⟩
    · cases hl
    · cases hl
    · exact ⟨(getSongAsserts_spec hg).2, (getSongAsserts_spec hg).1⟩
  · intro st t l h hlt
    rcases h.inv with ⟨uri, hl, hg, ht⟩ | ⟨-, hg, ht⟩ | ⟨-, -, ht⟩
    · subst ht
      rcases getSongFn_borrowed o st uri with ⟨h1, -⟩ | ⟨h1, -, hsong⟩
      · exact absurd hlt (by omega)
      · exact ⟨uri, hl, hsong, by omega, (getSongAsserts_spec hg).2⟩
    · exfalso
      subst ht
      by_cases hp : st.prefixedSlot.isSome = true
      · rw [returnSongFn_prefixed hp, hprefixed_borrow] at hlt
        omega
      · have hp2 : st.prefixedSlot.isSome = false := by
          simp only [Bool.not_eq_true] at hp
          exact hp
        rw [returnSongFn_direct hp2, hdirect_borrow] at hlt
        omega
    · subst ht
      exact absurd hlt (by omega)
  · intro st t l h hlt
    rcases h.inv with ⟨uri, -, -, ht⟩ | ⟨hl, hg, ht⟩ | ⟨-, -, ht⟩
    · exfalso
      subst ht
      rcases getSongFn_borrowed o st uri with ⟨h1, -⟩ | ⟨h1, -, -⟩ <;> omega
    · subst ht
      by_cases hp : st.prefixedSlot.isSome = true
      · exfalso
        rw [returnSongFn_prefixed hp, hprefixed_borrow] at hlt
        omega
      · have hp2 : st.prefixedSlot.isSome = false := by
          simp only [Bool.not_eq_true] at hp
          exact hp
        have hpn : st.prefixedSlot = none := by
          cases hq : st.prefixedSlot with
          | none => rfl
          | some p => rw [hq] at hp2; cases hp2
        have hpos : 0 < st.borrowed := by
          simp only [returnSongAsserts, hp2, Bool.false_or,
            decide_eq_true_eq] at hg
          exact hg
        rw [returnSongFn_direct hp2] at hlt ⊢
        rw [hdirect_borrow] at hlt
        refine ⟨hl, hpn, ?_, rfl⟩
        rw [hdirect_borrow]
        omega
    · subst ht
      exact absurd hlt (by omega)
  · intro st t h hp
    rcases h.inv with ⟨u, hl, -, -⟩ | ⟨-, -, ht⟩ | ⟨hl, -, -⟩
    · cases hl
    · subst ht
      rw [returnSongFn_prefixed hp]
      exact ⟨rfl, hprefixed_borrow st⟩
    · cases hl
  · intro root t h
    rcases h.inv with ⟨u, hl, -, -⟩ | ⟨-, hg, -⟩ | ⟨hl, -, -⟩
    · cases hl
    · simp [returnSongAsserts] at hg
    · cases hl

theorem C9_borrow_discipline_witness :
    (getSongFn oracle0 st0 "a/b.mp3").2.borrowed ≤ 1 :=
  (C9_borrow_discipline oracle0).1 (getSongFn oracle0 st0 "a/b.mp3").2
    (Reach.step (Reach.openInit root0)
      (DbStep.getSong st0 "a/b.mp3" (by decide)))

/-! ## C8: outstanding prefixed-mount results -/

/-- C8 counterexample: after one delegated `GetSong` produced a prefixed
result, the debug assertions of `GetSong` fail, so a second mount query
cannot be issued before `ReturnSong`: two prefixed-mount results can never
be outstanding simultaneously on one instance. -/
theorem C8_counterexample :
    ((getSongFn oracle0 st0 "m/x").1 = .prefixedRes ⟨⟨"x", 5⟩, "m"⟩) ∧
    (getSongAsserts (getSongFn oracle0 st0 "m/x").2 = false) ∧
    (∀ t, ¬ DbStep oracle0 (.getSongOp "n/x")
       (getSongFn oracle0 st0 "m/x").2 t) := by
  refine ⟨by decide, by decide, ?_⟩
  intro t h
  rcases h.inv with ⟨u, -, hg, -⟩ | ⟨hl, -, -⟩ | ⟨hl, -, -⟩
  · exact absurd hg (by decide)
  · cases hl
  · cases hl

/-- C8 (amended): each delegated `GetSong` returns a freshly built prefixed
wrapper holding this query's song and mount path, but the instance admits at
most one outstanding result: after a delegated success the prefixed slot is
occupied, the `GetSong` assertions fail, and no further `GetSong` step is
possible until `ReturnSong`. -/
theorem C8_prefixed_single (o : MountOracle) (st : DbState) (uri : String)
    (mid : Nat) (song : LightSong)
    (hmid : (lookupDirectory st.root uri).dir.mounted = some mid)
    (ho : o mid (remString (lookupDirectory st.root uri).rem) = some song) :
    (getSongFn o st uri).1 =
      .prefixedRes ⟨song, pathString (lookupDirectory st.root uri).consumed⟩ ∧
    (getSongFn o st uri).2 =
      { st with
        prefixedSlot := some (PrefixedLightSong.mk song
          (pathString (lookupDirectory st.root uri).consumed)) } ∧
    getSongAsserts (getSongFn o st uri).2 = false ∧
    (∀ uri2 t, ¬ DbStep o (.getSongOp uri2) (getSongFn o st uri).2 t) := by
  have hres : getSongFn o st uri =
      (.prefixedRes ⟨song, pathString (lookupDirectory st.root uri).consumed⟩,
       { st with
         prefixedSlot := some (PrefixedLightSong.mk song
           (pathString (lookupDirectory st.root uri).consumed)) }) := by
    simp only [getSongFn, hmid, ho]
  rw [hres]
  refine ⟨rfl, rfl, rfl, ?_⟩
  intro uri2 t h
  rcases h.inv with ⟨u, -, hg, -⟩ | ⟨hl, -, -⟩ | ⟨hl, -, -⟩
  · cases (getSongAsserts_spec hg).1
  · cases hl
  · cases hl

theorem C10_mount_null_witness :
    (getSongFn oracle0 st0 "m/zzz").1 = .nullRes ∧
    (getSongFn oracle0 st0 "m/zzz").2 = st0 :=
  ⟨(C10_mount_null oracle0 st0 "m/zzz").1.mpr ⟨7, by decide, by decide⟩,
   (C10_mount_null oracle0 st0 "m/zzz").2
     ((C10_mount_null oracle0 st0 "m/zzz").1.mpr ⟨7, by decide, by decide⟩)⟩

theorem C8_prefixed_single_witness :
    (getSongFn oracle0 st0 "m/x").1 = .prefixedRes ⟨⟨"x", 5⟩, "m"⟩ ∧
    getSongAsserts (getSongFn oracle0 st0 "m/x").2 = false :=
  ⟨(C8_prefixed_single oracle0 st0 "m/x" 7 ⟨"x", 5⟩
      (by decide) (by decide)).1,
   (C8_prefixed_single oracle0 st0 "m/x" 7 ⟨"x", 5⟩
      (by decide) (by decide)).2.2.1⟩

end SimpleDB
